import Mathlib

/-! Verification model of the static-website build orchestrator (`build.js`)
and the Lighthouse audit harness (`scripts/test-lighthouse.js`).

The JavaScript source is shallowly embedded: string manipulation is modelled
on `List Char`, JavaScript objects as association lists, fallible steps as
`Except`, the watch-mode debounce scheduling as an explicit event-step
function, and the audit harness control flow as a function from an
environment of external outcomes to an execution trace. -/

/-! ## Character-list string utilities

JavaScript string primitives used by the source (`split`, `trim`,
`includes`, `replace` with a string pattern, i.e. first occurrence only)
modelled over `List Char`. -/

/-- Whitespace characters stripped by JavaScript `String.prototype.trim`
(ASCII subset; the source only ever trims ASCII CSV cells). -/
def isJsSpace (c : Char) : Bool :=
  c = ' ' || c = '\t' || c = '\n' || c = '\r' || c = '\x0b' || c = '\x0c'

/-- JavaScript `s.trim()`. -/
def trimStr (s : String) : String :=
  String.mk (((s.data.dropWhile isJsSpace).reverse.dropWhile isJsSpace).reverse)

/-- JavaScript `s.split(sep)` for a single-character separator: always
returns at least one (possibly empty) chunk, and keeps empty chunks. -/
def splitOnChar (sep : Char) : List Char → List (List Char)
  | [] => [[]]
  | c :: t =>
    let r := splitOnChar sep t
    if c = sep then [] :: r
    else
      match r with
      | [] => [[c]]
      | h :: t' => (c :: h) :: t'

/-- Does `n` occur as a leading segment of `h`? -/
def startsWithSeg : List Char → List Char → Bool
  | [], _ => true
  | _ :: _, [] => false
  | a :: as, b :: bs => a = b && startsWithSeg as bs

/-- Does `n` occur as a contiguous segment of the second list?
Models JavaScript `hay.includes(n)`. -/
def containsSeg (n : List Char) : List Char → Bool
  | [] => n.isEmpty
  | c :: t => startsWithSeg n (c :: t) || containsSeg n t

/-- ECMAScript `GetSubstitution` applied to a string replacement when the
pattern is a plain string (so there are no capture groups): scanning the
replacement left to right, a dollar sign followed by another dollar sign
yields a literal dollar, followed by an ampersand yields the matched text
(`matched`), followed by a backquote (code point 96) yields the portion of
the subject before the match (`pre`), followed by a single quote (code
point 39) yields the portion after the match (`suf`); a dollar sign in any
other context — including the capture references `$n`, `$nn` and `$<`,
which have no captures to refer to — passes through literally, with
scanning resuming at the following character. -/
def getSubstitution (matched pre suf : List Char) : List Char → List Char
  | [] => []
  | c :: rest =>
    if c = '$' then
      match rest with
      | [] => ['$']
      | d :: rest' =>
        if d = '$' then '$' :: getSubstitution matched pre suf rest'
        else if d = '&' then matched ++ getSubstitution matched pre suf rest'
        else if d = Char.ofNat 96 then pre ++ getSubstitution matched pre suf rest'
        else if d = Char.ofNat 39 then suf ++ getSubstitution matched pre suf rest'
        else '$' :: getSubstitution matched pre suf (d :: rest')
    else c :: getSubstitution matched pre suf rest

/-- The scan of `replaceFirstSeg`, carrying the already-emitted prefix in
reverse (needed because the substitution of the replacement text refers to
the portions of the subject before and after the match). -/
def replaceFirstSegAux (n r : List Char) (pre : List Char) : List Char → List Char
  | [] => []
  | c :: t =>
    if startsWithSeg n (c :: t) then
      getSubstitution n pre.reverse ((c :: t).drop n.length) r ++ (c :: t).drop n.length
    else c :: replaceFirstSegAux n r (c :: pre) t

/-- Replace the first occurrence of `n` in `h` by the replacement `r`,
with `r` passed through ECMAScript `GetSubstitution`.  Models JavaScript
`hay.replace(n, r)` with a string pattern and a string replacement. -/
def replaceFirstSeg (n r h : List Char) : List Char :=
  replaceFirstSegAux n r [] h

/-- JavaScript `hay.includes(pat)` on `String`. -/
def containsStr (hay pat : String) : Bool :=
  containsSeg pat.data hay.data

/-- JavaScript `hay.replace(pat, repl)` on `String` (first occurrence). -/
def replaceFirstStr (hay pat repl : String) : String :=
  String.mk (replaceFirstSeg pat.data repl.data hay.data)

/-! ## CSV-to-JSON re-encoding (`toRows` in `preprocessHtmlContent`, build.js)

JavaScript `Number(raw)` together with `JSON.stringify` of the resulting
number is abstracted as a parameter `numSem : String → Option String`:
`numSem raw = some numeral` means `Number(raw)` is finite and serializes as
`numeral`; `none` means `Number(raw)` is `NaN` or infinite, so
`Number.isFinite` fails and the raw string is kept.  General theorems
quantify over `numSem`; the instantiation `intNumSem` below realizes the
signed-decimal-integer subset, on which IEEE-754 and the model agree. -/

/-- A JSON value appearing in a re-encoded CSV row: a number (carried as its
JSON numeral) or a string. -/
inductive JsVal
  | jnum (numeral : String)
  | jstr (s : String)
deriving DecidableEq

/-- Accumulate decimal digits; `none` on the first non-digit. -/
def decDigitsAux : List Char → Nat → Option Nat
  | [], n => some n
  | c :: cs, n =>
    if c.isDigit then decDigitsAux cs (10 * n + (c.toNat - 48)) else none

/-- `Number(s)` followed by JSON serialization, realized on the
signed-decimal-integer subset of JavaScript numeric syntax: an optional
sign followed by decimal digits (leading zeros canonicalize, `-0`
serializes as `0`, exactly as in JavaScript).  Other numeric forms
(fractions, exponents, hex) are reported as non-numbers by this
instantiation; theorems that depend on numeric conversion quantify over
the semantics parameter instead. -/
def intNumSem (s : String) : Option String :=
  match s.data with
  | [] => none
  | '-' :: rest =>
    if rest.isEmpty then none
    else (decDigitsAux rest 0).map (fun n => if n = 0 then "0" else "-" ++ toString n)
  | '+' :: rest =>
    if rest.isEmpty then none
    else (decDigitsAux rest 0).map (fun n => toString n)
  | cs => (decDigitsAux cs 0).map (fun n => toString n)

/-- JavaScript object assignment `row[key] = v` on an insertion-ordered
association list: an existing key keeps its position and gets the new
value, a new key is appended. -/
def objInsert (row : List (String × JsVal)) (key : String) (v : JsVal) :
    List (String × JsVal) :=
  match row with
  | [] => [(key, v)]
  | (k, w) :: t => if k = key then (key, v) :: t else (k, w) :: objInsert t key v

/-- One cell value: `raw` is the trimmed cell text.  Source:
`const asNum = raw === "" ? raw : Number(raw);`
`row[key] = Number.isFinite(asNum) ? asNum : raw;`
(`Number.isFinite("")` is `false`, so an empty cell passes through as `""`). -/
def cellValue (numSem : String → Option String) (raw : String) : JsVal :=
  if raw = "" then JsVal.jstr ""
  else
    match numSem raw with
    | some numeral => JsVal.jnum numeral
    | none => JsVal.jstr raw

/-- The inner `for (let j = 0; ...)` loop of `toRows`: walk the headers,
taking `cols[j] ?? ""`, trimming, and assigning into the row object. -/
def buildRow (numSem : String → Option String) :
    List String → List String → List (String × JsVal) → List (String × JsVal)
  | [], _, row => row
  | key :: hs, cols, row =>
    let raw := trimStr (cols.headD "")
    buildRow numSem hs cols.tail (objInsert row key (cellValue numSem raw))

/-- Line splitting of `toRows`: `csvText.replace(/\r/g, "\n")`, then
`.split(/\n+/).filter(Boolean)`.  Splitting on runs of newlines and then
dropping empty chunks coincides with splitting on single newlines and
dropping empty chunks, which is how it is realized here. -/
def csvLines (csvText : String) : List (List Char) :=
  (splitOnChar '\n' (csvText.data.map (fun c => if c = '\r' then '\n' else c))).filter
    (fun l => !l.isEmpty)

/-- Header extraction: `lines[0].split(",").map((h) => h.trim())`. -/
def csvHeaders (headerLine : List Char) : List String :=
  (splitOnChar ',' headerLine).map (fun cs => trimStr (String.mk cs))

/-- The outer `for (let i = 1; ...)` loop of `toRows`.  Source:
`const cols = lines[i].split(","); if (!cols[0]) continue;` — the skip
check is on the raw (untrimmed) first cell, and matched rows are pushed in
order. -/
def toRowsLoop (numSem : String → Option String) (headers : List String) :
    List (List Char) → List (List (String × JsVal)) → List (List (String × JsVal))
  | [], rows => rows
  | line :: rest, rows =>
    match (splitOnChar ',' line).map String.mk with
    | [] => toRowsLoop numSem headers rest rows
    | c0 :: cs =>
      if c0 = "" then toRowsLoop numSem headers rest rows
      else toRowsLoop numSem headers rest (rows ++ [buildRow numSem headers (c0 :: cs) []])

/-- `toRows` of `preprocessHtmlContent` (build.js lines 121-140). -/
def toRows (numSem : String → Option String) (csvText : String) :
    List (List (String × JsVal)) :=
  if csvText = "" then []
  else
    match csvLines csvText with
    | [] => []
    | headerLine :: dataLines =>
      toRowsLoop numSem (csvHeaders headerLine) dataLines []

/-- The contribution of one data line, used to characterize `toRows`:
`none` exactly when the raw first cell is the empty string. -/
def csvLineToRow (numSem : String → Option String) (headers : List String)
    (line : List Char) : Option (List (String × JsVal)) :=
  match (splitOnChar ',' line).map String.mk with
  | [] => none
  | c0 :: cs => if c0 = "" then none else some (buildRow numSem headers (c0 :: cs) [])

/-- Claim-side rendering of the C10 wording, for comparison with `toRows`:
a data row is omitted when its first cell is empty AFTER trimming.  The
source instead tests the raw first cell (`if (!cols[0]) continue;`). -/
def toRowsSpecTrimmedLoop (numSem : String → Option String) (headers : List String) :
    List (List Char) → List (List (String × JsVal)) → List (List (String × JsVal))
  | [], rows => rows
  | line :: rest, rows =>
    match (splitOnChar ',' line).map String.mk with
    | [] => toRowsSpecTrimmedLoop numSem headers rest rows
    | c0 :: cs =>
      if trimStr c0 = "" then toRowsSpecTrimmedLoop numSem headers rest rows
      else toRowsSpecTrimmedLoop numSem headers rest
        (rows ++ [buildRow numSem headers (c0 :: cs) []])

/-- Claim-side counterpart of `toRows` following the C10 wording. -/
def toRowsSpecTrimmed (numSem : String → Option String) (csvText : String) :
    List (List (String × JsVal)) :=
  if csvText = "" then []
  else
    match csvLines csvText with
    | [] => []
    | headerLine :: dataLines =>
      toRowsSpecTrimmedLoop numSem (csvHeaders headerLine) dataLines []

/-! ## JSON serialization of the row array (`JSON.stringify(toRows(...))`) -/

/-- Hexadecimal digit character (lowercase), for control-character escapes. -/
def hexDigitChar (n : Nat) : Char :=
  if n < 10 then Char.ofNat (48 + n) else Char.ofNat (87 + n)

/-- `JSON.stringify` escaping of one character. -/
def jsonEscapeChar (c : Char) : List Char :=
  if c = '"' then ['\\', '"']
  else if c = '\\' then ['\\', '\\']
  else if c = '\n' then ['\\', 'n']
  else if c = '\r' then ['\\', 'r']
  else if c = '\t' then ['\\', 't']
  else if c = '\x08' then ['\\', 'b']
  else if c = '\x0c' then ['\\', 'f']
  else if c.toNat < 32 then
    ['\\', 'u', '0', '0', hexDigitChar (c.toNat / 16), hexDigitChar (c.toNat % 16)]
  else [c]

/-- `JSON.stringify` of a string value. -/
def jsonQuote (s : String) : String :=
  String.mk ('"' :: (s.data.map jsonEscapeChar).flatten ++ ['"'])

/-- `Array.prototype.join(sep)`. -/
def joinSep (sep : String) : List String → String
  | [] => ""
  | [s] => s
  | s :: rest => s ++ sep ++ joinSep sep rest

/-- Serialize one row value. -/
def stringifyVal : JsVal → String
  | .jnum numeral => numeral
  | .jstr s => jsonQuote s

/-- Serialize one key/value member. -/
def stringifyPair (p : String × JsVal) : String :=
  jsonQuote p.1 ++ ":" ++ stringifyVal p.2

/-- Serialize one row object (insertion order). -/
def stringifyRow (row : List (String × JsVal)) : String :=
  "\x7b" ++ joinSep "," (row.map stringifyPair) ++ "\x7d"

/-- Serialize the row array: `JSON.stringify(toRows(embeddedCsv))`. -/
def stringifyRows (rows : List (List (String × JsVal))) : String :=
  "[" ++ joinSep "," (rows.map stringifyRow) ++ "]"

/-! ## The preprocessing hook `preprocessHtmlContent` (build.js lines 88-164) -/

/-- JavaScript truthiness of an optional file read: absent or empty string
is falsy (`if (!embeddedCompanyDetails && !embeddedCsv) ...`). -/
def jsTruthy : Option String → Bool
  | none => false
  | some s => if s = "" then false else true

/-- The company-details injection block (raw JSON file content inside an
inert script tag). -/
def detailsScriptTag (details : String) : String :=
  "<script type=\"application/json\" id=\"company-details-json\">" ++ details ++ "</script>"

/-- The CSV-rows injection block (re-encoded JSON array inside an inert
script tag). -/
def rowsScriptTag (rowsJson : String) : String :=
  "<script type=\"application/json\" id=\"company-rows-json\">" ++ rowsJson ++ "</script>"

/-- The closing head marker. -/
def headCloseTag : String := "</head>"

/-- `preprocessHtmlContent(filePath, htmlContent)`.  The two auxiliary file
reads are passed as `Option String` (a read failure is caught and treated
as absence); `numSem` is the numeric-conversion semantics for `toRows`.
Faithful to the source: only the company-details JSON (when truthy) and
the re-encoded rows JSON are injected — the raw CSV text never is — and
the injection goes before the first `</head>`, or is prepended when the
markup has no closing head marker. -/
def preprocessHtmlContent (numSem : String → Option String) (fileName : String)
    (companyDetails csv : Option String) (htmlContent : String) : String :=
  if fileName ≠ "engineering_responsibilities.html" then htmlContent
  else if !(jsTruthy companyDetails) && !(jsTruthy csv) then htmlContent
  else
    let rowsJson :=
      if jsTruthy csv then stringifyRows (toRows numSem (csv.getD "")) else "[]"
    let parts :=
      (if jsTruthy companyDetails then [detailsScriptTag (companyDetails.getD "")] else [])
        ++ [rowsScriptTag rowsJson]
    let injection := joinSep "\n" parts
    if containsStr htmlContent headCloseTag then
      replaceFirstStr htmlContent headCloseTag (injection ++ "\n" ++ headCloseTag)
    else injection ++ htmlContent

/-! ## Watch-mode debounce scheduling (`startWatchMode`, build.js lines 547-615)

`debouncedBuild` closes over three mutable variables: `buildTimeout` (at
most one pending timer), `buildPromise` (the in-flight build, if any) and
`pendingChanges`.  One debounce instance is modelled as an explicit state,
and the single-threaded event loop as a step function over three event
kinds: a watcher file-change callback running `debouncedBuild`, the firing
of the pending timer, and the completion of the in-flight build. -/

/-- The kind of the pending timer: the 600 ms main timer whose callback may
start a build, or the 500 ms re-queue timer set while a build is in flight,
whose callback re-enters `debouncedBuild` with the remembered path. -/
inductive TimerKind
  | main
  | requeue (path : String)
deriving DecidableEq

/-- The closure state of one `debouncedBuild` instance. -/
structure DebounceState where
  timer : Option TimerKind
  active : Bool
  pending : List String
deriving DecidableEq

/-- Events processed by one debounce instance. -/
inductive DEvent
  | fileChange (path : String)
  | timerFire
  | buildDone
deriving DecidableEq

/-- `pendingChanges.add(filePath)` (a JavaScript `Set`). -/
def insertPending (p : String) (ps : List String) : List String :=
  if p ∈ ps then ps else p :: ps

/-- One step of a debounce instance.  `fileChange` is the body of
`debouncedBuild`: record the path, cancel the pending timer, and set a
re-queue timer when a build is in flight, the main timer otherwise.
`timerFire` runs the pending timer's callback: a re-queue timer re-enters
`debouncedBuild`; the main timer's callback returns at once when a build
is in flight (`if (buildPromise) return;`), and otherwise clears the
pending set and starts the build.  `buildDone` is the resolution of
`buildPromise` (`buildPromise = null`).  The returned flag reports whether
this step started a build. -/
def watchStep (s : DebounceState) : DEvent → DebounceState × Bool
  | .fileChange p =>
    let pending' := insertPending p s.pending
    if s.active then (⟨some (TimerKind.requeue p), s.active, pending'⟩, false)
    else (⟨some TimerKind.main, s.active, pending'⟩, false)
  | .timerFire =>
    match s.timer with
    | none => (s, false)
    | some (TimerKind.requeue p) =>
      let pending' := insertPending p s.pending
      if s.active then (⟨some (TimerKind.requeue p), s.active, pending'⟩, false)
      else (⟨some TimerKind.main, s.active, pending'⟩, false)
    | some TimerKind.main =>
      if s.active then (⟨none, s.active, s.pending⟩, false)
      else (⟨none, true, []⟩, true)
  | .buildDone =>
    if s.active then (⟨s.timer, false, s.pending⟩, false) else (s, false)

/-- Run a debounce instance over an event trace, counting started builds. -/
def runWatchTrace (s : DebounceState) : List DEvent → DebounceState × Nat
  | [] => (s, 0)
  | e :: rest =>
    let step := watchStep s e
    let next := runWatchTrace step.1 rest
    (next.1, (if step.2 then 1 else 0) + next.2)

/-- The idle debounce state: no timer pending, no build in flight, empty
pending set — the state in which `startWatchMode` creates the closure. -/
def freshDebounce : DebounceState := ⟨none, false, []⟩

/-- N well-separated change events: each cycle is one file-change event,
the firing of the debounce timer, and the completion of the resulting
build before the next event arrives. -/
def debounceCycles (p : String) : Nat → List DEvent
  | 0 => []
  | n + 1 =>
    DEvent.fileChange p :: DEvent.timerFire :: DEvent.buildDone :: debounceCycles p n

/-! ## The whole watch system: accumulated watcher registrations

`build()` ends with `if (this.isWatchMode) { this.startWatchMode(); }`
(build.js lines 195-197), and `startWatchMode` registers a NEW chokidar
watcher whose `debouncedBuild` closure is fresh.  So every successful
watch-triggered build appends one more independent debounce instance, and
a file-system event is delivered to the handler of every registered
watcher.  The system state is the list of live debounce instances. -/

/-- Events of the multi-watcher system: a file-system change (delivered to
every watcher), the firing of watcher `i`'s pending timer, and the
successful completion of watcher `i`'s in-flight build (which re-runs
`startWatchMode`, appending a fresh instance). -/
inductive SysEvent
  | fileChange (path : String)
  | timerFire (i : Nat)
  | buildDone (i : Nat)

/-- One step of the multi-watcher system. -/
def sysStep (s : List DebounceState) : SysEvent → List DebounceState
  | .fileChange p => s.map (fun w => (watchStep w (DEvent.fileChange p)).1)
  | .timerFire i =>
    match s.get? i with
    | some w => s.set i (watchStep w DEvent.timerFire).1
    | none => s
  | .buildDone i =>
    match s.get? i with
    | some w =>
      if w.active then s.set i (watchStep w DEvent.buildDone).1 ++ [freshDebounce]
      else s
    | none => s

/-- Run the multi-watcher system over an event trace. -/
def sysRun (s : List DebounceState) : List SysEvent → List DebounceState
  | [] => s
  | e :: rest => sysRun (sysStep s e) rest

/-- The system right after the initial `startWatchMode`: one fresh
debounce instance. -/
def initialSystem : List DebounceState := [freshDebounce]

/-- Number of build pipeline executions currently in flight. -/
def activeCount (s : List DebounceState) : Nat :=
  (s.filter (fun w => w.active)).length

/-- One successful watch-triggered rebuild driven through watcher 0:
a change event, watcher 0's timer fires and starts the build, and the
build completes successfully (re-registering a watcher). -/
def watchCycle (s : List DebounceState) : List DebounceState :=
  sysRun s [SysEvent.fileChange "x", SysEvent.timerFire 0, SysEvent.buildDone 0]

/-- The system after `k` successful watch-triggered rebuilds. -/
def sysCycles : Nat → List DebounceState
  | 0 => initialSystem
  | k + 1 => watchCycle (sysCycles k)

/-- An event trace exhibiting two concurrently active builds: one
successful rebuild registers a second watcher; the next change event
arms both watchers' (independent) main timers, and each timer's callback
sees its own closure's `buildPromise === null` and starts a build. -/
def overlapTrace : List SysEvent :=
  [SysEvent.fileChange "a", SysEvent.timerFire 0, SysEvent.buildDone 0,
   SysEvent.fileChange "b", SysEvent.timerFire 0, SysEvent.timerFire 1]

/-! ## The build pipeline (`WebsiteBuilder.build`, build.js lines 172-202)

Each pipeline step's outcome is an `Except String Unit` supplied by the
environment (the steps call third-party transforms and the file system).
`bundleChartModule` and `showBuildStatistics` catch internally and only
warn, so they never propagate an error.  All other step errors reach the
`catch` of `build()`, which logs and calls `process.exit(1)` — `build()`
therefore never rejects: it either resolves or terminates the process. -/

/-- Outcomes of the fallible pipeline steps, as supplied by the world. -/
structure BuildEnv where
  cleanOutput : Except String Unit
  ensureOutputDir : Except String Unit
  processHtmlFiles : Except String Unit
  processCssFiles : Except String Unit
  processJsFiles : Except String Unit
  esbuildResult : Except String Unit
  copyImages : Except String Unit
  copyStaticFiles : Except String Unit
  statsResult : Except String Unit

/-- `bundleChartModule` (build.js lines 357-400): entirely best-effort —
any inner failure is caught and downgraded to a warning. -/
def bundleChartModule (inner : Except String Unit) : Except String Unit :=
  match inner with
  | .ok _ => .ok ()
  | .error _ => .ok ()

/-- `showBuildStatistics` (build.js lines 436-486): catches internally and
warns on failure. -/
def showBuildStatistics (inner : Except String Unit) : Except String Unit :=
  match inner with
  | .ok _ => .ok ()
  | .error _ => .ok ()

/-- The `try` body of `build()`: the fixed step sequence, failing on the
first step error. -/
def runPipeline (env : BuildEnv) : Except String Unit := do
  env.cleanOutput
  env.ensureOutputDir
  env.processHtmlFiles
  env.processCssFiles
  env.processJsFiles
  bundleChartModule env.esbuildResult
  env.copyImages
  env.copyStaticFiles
  showBuildStatistics env.statsResult

/-- How one `build()` invocation ends: normal resolution (in watch mode
the success line re-runs `startWatchMode`), or `process.exit(1)` from the
`catch` block, which terminates the whole process. -/
inductive BuildOutcome
  | completed (watchRestarted : Bool)
  | exitedProcess (code : Nat)
deriving DecidableEq

/-- `WebsiteBuilder.build()`. -/
def build (env : BuildEnv) (isWatchMode : Bool) : BuildOutcome :=
  match runPipeline env with
  | .ok _ => .completed isWatchMode
  | .error _ => .exitedProcess 1

/-- Fate of the watch process after the debounced timer callback runs
`await this.build()`.  The callback's `try/catch` would log and keep
watching if `build()` rejected, but `build()` never rejects: a pipeline
error is caught inside `build()` itself, which calls `process.exit(1)` and
terminates the watch process before the callback's `catch` can run. -/
inductive WatchOutcome
  | keptWatching
  | processTerminated (code : Nat)
deriving DecidableEq

/-- The watch-triggered build (`buildPromise` body, build.js 596-604). -/
def watchTriggeredBuild (env : BuildEnv) : WatchOutcome :=
  match build env true with
  | .completed _ => .keptWatching
  | .exitedProcess c => .processTerminated c

/-- A build environment in which every step succeeds. -/
def okBuildEnv : BuildEnv :=
  ⟨.ok (), .ok (), .ok (), .ok (), .ok (), .ok (), .ok (), .ok (), .ok ()⟩

/-! ## CSS processing (`processCssFiles`, build.js lines 270-325)

Per CSS file: run PurgeCSS, take `purgedResult[0]?.css || content`, then
minify.  There is no `try/catch` in `processCssFiles`: a rejection of the
purge step itself propagates out of the loop and fails the build.  The
purge outcome is modelled as `Except String (Option String)`: `error` for
a rejected purge promise, `ok none` for a result with no usable first
entry (`purgedResult[0]?.css` undefined), `ok (some css)` for a returned
css string (the empty string is falsy and also falls back to `content`). -/

/-- Processing of one CSS file: the purge step, the
`purgedResult[0]?.css || content` fallback, then minification. -/
def processCssFile (content : String) (purgeOutcome : Except String (Option String))
    (minifyCss : String → String) : Except String String :=
  match purgeOutcome with
  | .error e => .error e
  | .ok cssOpt =>
    let purgedCSS :=
      match cssOpt with
      | some css => if css = "" then content else css
      | none => content
    .ok (minifyCss purgedCSS)

/-! ## The audit harness (`scripts/test-lighthouse.js`)

Scores are Lighthouse category scores in `[0, 1]`; the harness scales them
by `100` and compares against the hard-coded threshold `90`.  JavaScript
IEEE-754 numbers are modelled as rationals (none of the compared
quantities sits at a floating-point rounding boundary). -/

/-- A parsed Lighthouse report for one page: the optional runtime-error
field and the four 0-1 category scores. -/
structure LighthouseReport where
  runtimeError : Option String
  performance : ℚ
  accessibility : ℚ
  bestPractices : ℚ
  seo : ℚ
deriving DecidableEq

/-- One aggregated Audit Result (`results.push({...})`): page label and the
four scores scaled to 0-100. -/
structure PageResult where
  name : String
  performance : ℚ
  accessibility : ℚ
  bestPractices : ℚ
  seo : ℚ
deriving DecidableEq

/-- The record pushed for a page whose report parsed without runtime error
(`result.categories.<cat>.score * 100`). -/
def toPageResult (name : String) (r : LighthouseReport) : PageResult :=
  ⟨name, r.performance * 100, r.accessibility * 100, r.bestPractices * 100, r.seo * 100⟩

/-- The issue filter of the final summary:
`r.performance < 90 || r.accessibility < 90 || r.bestPractices < 90 || r.seo < 90`. -/
def hasIssue (r : PageResult) : Bool :=
  decide (r.performance < 90) || decide (r.accessibility < 90) ||
    decide (r.bestPractices < 90) || decide (r.seo < 90)

/-- `const issues = results.filter(...)`. -/
def issuesOf (results : List PageResult) : List PageResult :=
  results.filter hasIssue

/-- Exit status of the final block (test-lighthouse.js lines 316-367): with
no gathered results the soft "manual testing" path ends with status 0;
otherwise status 1 exactly when some page has some category below 90. -/
def evaluateExitCode (results : List PageResult) : Nat :=
  if results.isEmpty then 0
  else if (issuesOf results).isEmpty then 0
  else 1

/-- Outcome of one Lighthouse CLI invocation for one page: the report file
(parsed) if one was produced, and the spawn error / exit status of the
process (`run.error`, `run.status`). -/
structure LighthouseRun where
  reportFile : Option LighthouseReport
  spawnError : Bool
  exitStatus : Int

/-- The per-page body of the test loop (test-lighthouse.js lines 168-287),
as a function from the accumulated results to the new results.  A produced
report is authoritative: if it carries `runtimeError` the page is logged
and skipped (`continue`) without being pushed; otherwise its scaled scores
are pushed.  With no report file, a spawn error or non-zero exit throws,
which the per-page `catch` logs, leaving the results unchanged; otherwise
nothing is pushed either. -/
def processPage (name : String) (run : LighthouseRun) (results : List PageResult) :
    List PageResult :=
  match run.reportFile with
  | some report =>
    if report.runtimeError.isSome then results
    else results ++ [toPageResult name report]
  | none =>
    if run.spawnError || run.exitStatus != 0 then results
    else results

/-- Target platform, selecting the branch of
`killProcessTreeCrossPlatform`. -/
inductive Platform
  | win32
  | posix
deriving DecidableEq

/-- Termination actions attempted on the spawned server process. -/
inductive KillAction
  | taskkillTreeForce
  | plainKill
  | sigterm
deriving DecidableEq

/-- `killProcessTreeCrossPlatform(childProcess)` (test-lighthouse.js lines
29-50), as the ordered list of attempted termination actions: nothing when
no process handle; on Windows a forceful whole-tree
`taskkill /pid <pid> /T /F` FIRST, with a plain `childProcess.kill()` as
fallback only if `taskkill` throws; on POSIX a single graceful
`childProcess.kill("SIGTERM")` with no forceful fallback. -/
def killProcessTreeCrossPlatform (hasProcess : Bool) (plat : Platform)
    (taskkillFails : Bool) : List KillAction :=
  if !hasProcess then []
  else
    match plat with
    | .win32 =>
      if taskkillFails then [.taskkillTreeForce, .plainKill] else [.taskkillTreeForce]
    | .posix => [.sigterm]

/-- Is this a graceful signal (SIGTERM / default `kill()`), as opposed to
the forceful whole-tree `taskkill /F`? -/
def isGracefulSignal : KillAction → Bool
  | .sigterm => true
  | .plainKill => true
  | .taskkillTreeForce => false

/-- The policy asserted by the specification: a graceful signal is
attempted first (so a forceful kill can only be a fallback). -/
def gracefulFirstPolicy (acts : List KillAction) : Bool :=
  match acts with
  | [] => true
  | a :: _ => isGracefulSignal a

/-- External outcomes driving one `runLighthouseTests()` invocation. -/
structure HarnessEnv where
  distExists : Bool
  portAvailable : Option Nat
  serverHealthy : Bool
  plat : Platform
  taskkillFails : Bool

/-- Observable trace of one `runLighthouseTests()` invocation. -/
structure HarnessTrace where
  spawned : Bool
  cleanupActions : List KillAction
  results : List PageResult
  exitCode : Nat

/-- `runLighthouseTests()` (test-lighthouse.js lines 71-368).  Control
flow: a missing `dist` exits 1 before anything is spawned; a port-probe
failure throws inside the `try` before the spawn, so the `finally` block
sees `serverProcess === null` and kills nothing, and the empty result set
takes the soft exit-0 path; once the server is spawned, every path —
liveness-check failure (setup exception), per-page exceptions (caught in
the page loop), and normal completion — runs the `finally` block, which
calls `killProcessTreeCrossPlatform(serverProcess)`. -/
def runLighthouseTests (env : HarnessEnv) (pages : List (String × LighthouseRun)) :
    HarnessTrace :=
  if !env.distExists then ⟨false, [], [], 1⟩
  else
    match env.portAvailable with
    | none => ⟨false, [], [], 0⟩
    | some _ =>
      if !env.serverHealthy then
        ⟨true, killProcessTreeCrossPlatform true env.plat env.taskkillFails, [], 0⟩
      else
        let results := pages.foldl (fun acc pr => processPage pr.1 pr.2 acc) []
        ⟨true, killProcessTreeCrossPlatform true env.plat env.taskkillFails, results,
          evaluateExitCode results⟩

/-! ## Concrete environments used by witnesses and counterexamples -/

/-- A build environment whose HTML step fails (`HtmlMinifier.minify`
throwing on malformed markup). -/
def htmlFailEnv : BuildEnv :=
  ⟨.ok (), .ok (), .error "HTML minification threw", .ok (), .ok (), .ok (), .ok (),
    .ok (), .ok ()⟩

/-- A build environment in which the CSS purge step rejects for the single
stylesheet being processed, and everything else succeeds. -/
def cssPurgeThrowEnv : BuildEnv :=
  ⟨.ok (), .ok (), .ok (),
    (processCssFile "body" (Except.error "PurgeCSS rejected") (fun s => s)).map (fun _ => ()),
    .ok (), .ok (), .ok (), .ok (), .ok ()⟩

/-- A harness run on Windows that spawns the server, finds it healthy,
audits no pages, and whose `taskkill` succeeds. -/
def winEnvOk : HarnessEnv := ⟨true, some 3000, true, Platform.win32, false⟩

/-! ## Shared helper lemmas -/

/-- The kill routine always attempts at least one action on a live handle. -/
theorem killProcessTree_ne_nil (plat : Platform) (tk : Bool) :
    killProcessTreeCrossPlatform true plat tk ≠ [] := by
  cases plat <;> cases tk <;> simp [killProcessTreeCrossPlatform]

/-! ## Claim C1 -/

/-- Claim C1 (refuted; evaluation of the code at the failing input): if any
pipeline step of a watch-triggered `build()` fails, the error is caught by
`build()` itself, which calls `process.exit(1)`: the watch process
terminates instead of returning to watching.  The catch-and-continue
branch of `debouncedBuild` is unreachable for pipeline failures. -/
theorem c1_watch_build_failure_terminates (env : BuildEnv) (e : String)
    (h : runPipeline env = .error e) :
    watchTriggeredBuild env = WatchOutcome.processTerminated 1 := by
  unfold watchTriggeredBuild build
  rw [h]

/-- Witness for C1: a concrete watch-triggered build whose HTML step
throws ends in process termination with exit code 1. -/
theorem c1_watch_build_failure_terminates_witness :
    runPipeline htmlFailEnv = Except.error "HTML minification threw" ∧
    watchTriggeredBuild htmlFailEnv = WatchOutcome.processTerminated 1 :=
  ⟨rfl, c1_watch_build_failure_terminates htmlFailEnv "HTML minification threw" rfl⟩

/-! ## Claim C2 -/

/-- Claim C2 (refuted; evaluation of the code at the failing trace): after
one successful watch-triggered rebuild has registered a second watcher,
one further change event arms both watchers' independent main timers, and
each timer callback sees its own closure's `buildPromise === null` — the
trace ends with TWO build pipeline executions simultaneously in flight. -/
theorem c2_two_concurrent_builds :
    activeCount (sysRun initialSystem overlapTrace) = 2 := by decide

/-! ## Claim C7 -/

/-- Claim C7 counterexample: a PurgeCSS rejection is not caught by
`processCssFiles` — instead of falling back to the original content, the
error propagates and the whole build exits with status 1. -/
theorem c7_purge_throw_fails_build :
    processCssFile "body" (Except.error "PurgeCSS rejected") (fun s => s) =
      Except.error "PurgeCSS rejected" ∧
    build cssPurgeThrowEnv false = BuildOutcome.exitedProcess 1 :=
  ⟨rfl, rfl⟩

/-- Claim C7 (amended): when the purge step RETURNS nothing usable — no
usable first result entry, or an empty css string — the build falls back
to minifying the original un-purged content and continues; an error
thrown by the purge step itself propagates instead. -/
theorem c7_purge_fallback :
    (∀ (content : String) (minifyCss : String → String),
        processCssFile content (Except.ok none) minifyCss = Except.ok (minifyCss content)) ∧
    (∀ (content : String) (minifyCss : String → String),
        processCssFile content (Except.ok (some "")) minifyCss =
          Except.ok (minifyCss content)) ∧
    (∀ (content e : String) (minifyCss : String → String),
        processCssFile content (Except.error e) minifyCss = Except.error e) :=
  ⟨fun _ _ => rfl, fun _ _ => rfl, fun _ _ _ => rfl⟩

/-! ## Claim C8 -/

/-- Claim C8 (confirmed): a page whose parsed report carries a
runtime-error field is skipped: it is not appended to the result set, so
the final pass/fail evaluation is exactly what it would have been without
that page — in particular the page is never aggregated as a zero score. -/
theorem c8_runtime_error_page_skipped :
    ∀ (name err : String) (perf acc bp seo : ℚ) (spawnErr : Bool) (status : Int)
      (results : List PageResult),
      processPage name ⟨some ⟨some err, perf, acc, bp, seo⟩, spawnErr, status⟩ results =
        results ∧
      evaluateExitCode
          (processPage name ⟨some ⟨some err, perf, acc, bp, seo⟩, spawnErr, status⟩ results) =
        evaluateExitCode results :=
  fun _ _ _ _ _ _ _ _ _ => ⟨rfl, rfl⟩

/-! ## Claim C4 -/

/-- Claim C4 counterexample: on Windows, with the server spawned and
`taskkill` succeeding, the ONLY termination action is the forceful
whole-process-tree `taskkill /T /F` — no graceful signal is sent first,
contradicting "graceful signal first, forceful kill only as a fallback". -/
theorem c4_windows_forceful_first :
    (runLighthouseTests winEnvOk []).spawned = true ∧
    (runLighthouseTests winEnvOk []).cleanupActions = [KillAction.taskkillTreeForce] ∧
    gracefulFirstPolicy (runLighthouseTests winEnvOk []).cleanupActions = false :=
  ⟨rfl, rfl, rfl⟩

/-- Claim C4 (amended): on every exit path of the harness on which the
server process has been spawned — normal completion, per-page exceptions,
or a post-spawn setup exception — the kill routine is invoked and attempts
at least one termination action; the action order is platform-specific:
POSIX sends a single graceful SIGTERM (no forceful fallback), Windows
attempts the forceful whole-tree `taskkill` first with a plain `kill()`
as fallback only if `taskkill` throws. -/
theorem c4_cleanup_on_every_spawned_path :
    ∀ (env : HarnessEnv) (pages : List (String × LighthouseRun)),
      (runLighthouseTests env pages).spawned = true →
      (runLighthouseTests env pages).cleanupActions =
          killProcessTreeCrossPlatform true env.plat env.taskkillFails ∧
      (runLighthouseTests env pages).cleanupActions ≠ [] ∧
      killProcessTreeCrossPlatform true Platform.posix env.taskkillFails =
          [KillAction.sigterm] ∧
      killProcessTreeCrossPlatform true Platform.win32 true =
          [KillAction.taskkillTreeForce, KillAction.plainKill] ∧
      killProcessTreeCrossPlatform true Platform.win32 false =
          [KillAction.taskkillTreeForce] := by
  intro env pages h
  obtain ⟨d, port, healthy, plat, tk⟩ := env
  cases d
  · simp [runLighthouseTests] at h
  · cases port with
    | none => simp [runLighthouseTests] at h
    | some p =>
      cases healthy
      · exact ⟨by simp [runLighthouseTests], killProcessTree_ne_nil plat tk, rfl,
          rfl, rfl⟩
      · exact ⟨by simp [runLighthouseTests], killProcessTree_ne_nil plat tk, rfl,
          rfl, rfl⟩

/-- Witness for C4: a concrete spawned POSIX run where cleanup happens. -/
theorem c4_cleanup_on_every_spawned_path_witness :
    (runLighthouseTests ⟨true, some 3000, true, Platform.posix, false⟩ []).cleanupActions =
        killProcessTreeCrossPlatform true Platform.posix false ∧
    (runLighthouseTests ⟨true, some 3000, true, Platform.posix, false⟩ []).cleanupActions ≠
        [] ∧
    killProcessTreeCrossPlatform true Platform.posix false = [KillAction.sigterm] ∧
    killProcessTreeCrossPlatform true Platform.win32 true =
        [KillAction.taskkillTreeForce, KillAction.plainKill] ∧
    killProcessTreeCrossPlatform true Platform.win32 false =
        [KillAction.taskkillTreeForce] :=
  c4_cleanup_on_every_spawned_path ⟨true, some 3000, true, Platform.posix, false⟩ [] rfl

/-! ## Claim C6 -/

/-- Claim C6 (confirmed): a page whose report yields performance `0.85`
(scaled to 85) is below the hard-coded blocking threshold 90 (= 0.9 scaled),
so the run containing it is reported failing — the page is listed among the
issues — and the process exits with status 1; and whenever every aggregated
page has all four category scores at or above `0.9` (scaled: at or above
90), the exit status is 0. -/
theorem c6_threshold_evaluation :
    (∀ (name : String) (acc bp seo : ℚ) (rest1 rest2 : List PageResult),
        evaluateExitCode (rest1 ++ toPageResult name ⟨none, 0.85, acc, bp, seo⟩ :: rest2) =
          1 ∧
        toPageResult name ⟨none, 0.85, acc, bp, seo⟩ ∈
          issuesOf (rest1 ++ toPageResult name ⟨none, 0.85, acc, bp, seo⟩ :: rest2)) ∧
    (∀ pages : List (String × LighthouseReport),
        (∀ pr ∈ pages,
            (0.9 : ℚ) ≤ pr.2.performance ∧ (0.9 : ℚ) ≤ pr.2.accessibility ∧
            (0.9 : ℚ) ≤ pr.2.bestPractices ∧ (0.9 : ℚ) ≤ pr.2.seo) →
        evaluateExitCode (pages.map (fun pr => toPageResult pr.1 pr.2)) = 0) := by
  constructor
  · intro name acc bp seo rest1 rest2
    have hissue : hasIssue (toPageResult name ⟨none, 0.85, acc, bp, seo⟩) = true := by
      simp only [hasIssue, toPageResult, Bool.or_eq_true, decide_eq_true_eq]
      norm_num
    have hmem : toPageResult name ⟨none, 0.85, acc, bp, seo⟩ ∈
        issuesOf (rest1 ++ toPageResult name ⟨none, 0.85, acc, bp, seo⟩ :: rest2) :=
      List.mem_filter.mpr ⟨by simp, hissue⟩
    refine ⟨?_, hmem⟩
    unfold evaluateExitCode
    rw [if_neg (by simp [List.isEmpty_iff]), if_neg ?_]
    rw [List.isEmpty_iff]
    exact fun hh => (List.ne_nil_of_mem hmem) hh
  · intro pages hall
    have hiss : issuesOf (pages.map fun pr => toPageResult pr.1 pr.2) = [] := by
      unfold issuesOf
      rw [List.filter_eq_nil_iff]
      intro a ha
      rw [List.mem_map] at ha
      obtain ⟨pr, hpr, rfl⟩ := ha
      obtain ⟨h1, h2, h3, h4⟩ := hall pr hpr
      simp only [hasIssue, toPageResult, Bool.or_eq_true, decide_eq_true_eq]
      push_neg
      refine ⟨⟨⟨?_, ?_⟩, ?_⟩, ?_⟩ <;> nlinarith
    unfold evaluateExitCode
    rw [hiss]
    simp

/-- Witness for C6: a single page with all four report scores at or above
`0.9` makes the harness exit with status 0. -/
theorem c6_threshold_evaluation_witness :
    evaluateExitCode
        ([("Homepage", (⟨none, 0.95, 0.92, 1, 0.9⟩ : LighthouseReport))].map
          (fun pr => toPageResult pr.1 pr.2)) = 0 :=
  c6_threshold_evaluation.2 [("Homepage", ⟨none, 0.95, 0.92, 1, 0.9⟩)]
    (by
      intro pr hpr
      rw [List.mem_singleton] at hpr
      subst hpr
      refine ⟨?_, ?_, ?_, ?_⟩ <;> norm_num)

/-! ## Trace lemmas for the debounce machine -/

/-- Unfolding one event of a debounce trace. -/
theorem runWatchTrace_cons (s : DebounceState) (e : DEvent) (l : List DEvent) :
    runWatchTrace s (e :: l) =
      ((runWatchTrace (watchStep s e).1 l).1,
        (if (watchStep s e).2 = true then 1 else 0) +
          (runWatchTrace (watchStep s e).1 l).2) := rfl

/-- Splitting a debounce trace: state threads through, counts add. -/
theorem runWatchTrace_append (l1 l2 : List DEvent) (s : DebounceState) :
    runWatchTrace s (l1 ++ l2) =
      ((runWatchTrace (runWatchTrace s l1).1 l2).1,
        (runWatchTrace s l1).2 + (runWatchTrace (runWatchTrace s l1).1 l2).2) := by
  induction l1 generalizing s with
  | nil => simp [runWatchTrace]
  | cons e t ih => simp [runWatchTrace, ih, Nat.add_assoc]

/-- A burst of change events while the main timer is armed and no build is
in flight starts no build and leaves the main timer armed. -/
theorem debounce_burst (p : String) :
    ∀ (n : Nat) (ps : List String),
      (runWatchTrace ⟨some TimerKind.main, false, ps⟩
          (List.replicate n (DEvent.fileChange p))).2 = 0 ∧
      ∃ qs, (runWatchTrace ⟨some TimerKind.main, false, ps⟩
          (List.replicate n (DEvent.fileChange p))).1 =
        ⟨some TimerKind.main, false, qs⟩ := by
  intro n
  induction n with
  | zero => exact fun ps => ⟨rfl, ps, rfl⟩
  | succ m ih =>
    intro ps
    have hstep : watchStep ⟨some TimerKind.main, false, ps⟩ (DEvent.fileChange p) =
        (⟨some TimerKind.main, false, insertPending p ps⟩, false) := rfl
    obtain ⟨hc, qs, hs⟩ := ih (insertPending p ps)
    refine ⟨?_, qs, ?_⟩
    · simp [List.replicate_succ, runWatchTrace, hstep, hc]
    · simp [List.replicate_succ, runWatchTrace, hstep, hs]

/-! ## Claim C3 -/

/-- Claim C3 (confirmed, for one debounce instance — the closure created
by one `startWatchMode` call): N change events arriving within the
debounce window from the idle state (modelled: no timer firing interleaves
the burst) produce exactly one build; N events each arriving after the
previous build completed produce exactly N builds. -/
theorem c3_debounce_coalescing :
    (∀ (N : Nat) (p : String), 1 ≤ N →
        (runWatchTrace freshDebounce
            (List.replicate N (DEvent.fileChange p) ++
              [DEvent.timerFire, DEvent.buildDone])).2 = 1) ∧
    (∀ (N : Nat) (p : String),
        (runWatchTrace freshDebounce (debounceCycles p N)).2 = N) := by
  constructor
  · intro N p hN
    obtain ⟨m, rfl⟩ : ∃ m, N = m + 1 := ⟨N - 1, (Nat.succ_pred_eq_of_pos hN).symm⟩
    have hstep : watchStep freshDebounce (DEvent.fileChange p) =
        (⟨some TimerKind.main, false, insertPending p []⟩, false) := rfl
    obtain ⟨hc, qs, hs⟩ := debounce_burst p m (insertPending p [])
    rw [List.replicate_succ, List.cons_append, runWatchTrace_cons]
    simp only [hstep]
    rw [runWatchTrace_append, hc, hs]
    rfl
  · intro N p
    induction N with
    | zero => rfl
    | succ m ih =>
      have hcycle : runWatchTrace freshDebounce
          [DEvent.fileChange p, DEvent.timerFire, DEvent.buildDone] =
          (freshDebounce, 1) := by
        simp [runWatchTrace, watchStep, insertPending, freshDebounce]
      have hsplit : debounceCycles p (m + 1) =
          [DEvent.fileChange p, DEvent.timerFire, DEvent.buildDone] ++
            debounceCycles p m := rfl
      rw [hsplit, runWatchTrace_append, hcycle]
      show 1 + (runWatchTrace freshDebounce (debounceCycles p m)).2 = m + 1
      rw [ih]
      omega

/-- Witness for C3: a burst of three change events from idle yields exactly
one build; three well-separated events yield exactly three builds. -/
theorem c3_debounce_coalescing_witness :
    (runWatchTrace freshDebounce
        (List.replicate 3 (DEvent.fileChange "a") ++
          [DEvent.timerFire, DEvent.buildDone])).2 = 1 ∧
    (runWatchTrace freshDebounce (debounceCycles "a" 3)).2 = 3 :=
  ⟨c3_debounce_coalescing.1 3 "a" (by decide), c3_debounce_coalescing.2 3 "a"⟩

/-! ## Claim C9 -/

/-- Shape of the system after `k` successful watch-triggered rebuilds: the
instance driven through the cycles is back to fresh at the head, and `k`
further instances have accumulated. -/
theorem sysCycles_shape :
    ∀ k : Nat, ∃ rest, sysCycles k = freshDebounce :: rest ∧ rest.length = k := by
  intro k
  induction k with
  | zero => exact ⟨[], rfl, rfl⟩
  | succ m ih =>
    obtain ⟨rest, hshape, hlen⟩ := ih
    refine ⟨(rest.map fun w => (watchStep w (DEvent.fileChange "x")).1) ++ [freshDebounce],
      ?_, by simp [hlen]⟩
    show watchCycle (sysCycles m) = _
    rw [hshape]
    simp [watchCycle, sysRun, sysStep, watchStep, insertPending, freshDebounce]

/-- Claim C9 (confirmed): every successful completion of a watch-mode
`build()` re-runs `startWatchMode`, appending one more debounce instance
with fresh closure state; a file-change event is delivered to every
registered instance, each updating independently; hence after `k`
successful watch-triggered rebuilds, `k + 1` independent debounce
instances receive each event. -/
theorem c9_watcher_accumulation :
    (∀ (s : List DebounceState) (i : Nat) (w : DebounceState),
        s.get? i = some w → w.active = true →
        (sysStep s (SysEvent.buildDone i)).length = s.length + 1 ∧
        (sysStep s (SysEvent.buildDone i)).getLast? = some freshDebounce) ∧
    (∀ (s : List DebounceState) (p : String),
        (sysStep s (SysEvent.fileChange p)).length = s.length ∧
        ∀ (j : Nat) (w : DebounceState), s.get? j = some w →
          (sysStep s (SysEvent.fileChange p)).get? j =
            some (watchStep w (DEvent.fileChange p)).1) ∧
    (∀ k : Nat, (sysCycles k).length = k + 1) := by
  refine ⟨?_, ?_, ?_⟩
  · intro s i w hget hact
    have hg : s[i]? = some w := by rw [← List.get?_eq_getElem?]; exact hget
    constructor
    · simp [sysStep, hg, hact]
    · simp [sysStep, hg, hact, List.getLast?_concat]
  · intro s p
    have hlen : (sysStep s (SysEvent.fileChange p)).length = s.length := by
      simp [sysStep]
    refine ⟨hlen, ?_⟩
    intro j w hget
    have hg : s[j]? = some w := by rw [← List.get?_eq_getElem?]; exact hget
    rw [List.get?_eq_getElem?]
    simp [sysStep, hg]
  · intro k
    obtain ⟨rest, hshape, hlen⟩ := sysCycles_shape k
    rw [hshape]
    simp [hlen]

/-- Witness for C9: completing the build of a single active instance
leaves two registered instances, the new one fresh. -/
theorem c9_watcher_accumulation_witness :
    (sysStep [(⟨none, true, []⟩ : DebounceState)] (SysEvent.buildDone 0)).length = 2 ∧
    (sysStep [(⟨none, true, []⟩ : DebounceState)] (SysEvent.buildDone 0)).getLast? =
      some freshDebounce :=
  c9_watcher_accumulation.1 [⟨none, true, []⟩] 0 ⟨none, true, []⟩ rfl rfl

/-! ## Segment lemmas for the injection placement -/

/-- A list is a leading segment of itself followed by anything. -/
theorem startsWithSeg_self_append (n v : List Char) :
    startsWithSeg n (n ++ v) = true := by
  induction n with
  | nil => rfl
  | cons a t ih => simp [startsWithSeg, ih]

/-- `containsSeg` holds when the pattern sits at the front. -/
theorem containsSeg_self_append (n v : List Char) :
    containsSeg n (n ++ v) = true := by
  cases n with
  | nil => cases v <;> simp [containsSeg, startsWithSeg, List.isEmpty]
  | cons a t =>
    rw [List.cons_append]
    simp only [containsSeg, Bool.or_eq_true]
    exact Or.inl (by rw [← List.cons_append]; exact startsWithSeg_self_append (a :: t) v)

/-- `containsSeg` holds for any surrounding of the pattern. -/
theorem containsSeg_middle (n u v : List Char) :
    containsSeg n (u ++ n ++ v) = true := by
  induction u with
  | nil => simpa using containsSeg_self_append n v
  | cons c t ih =>
    rw [List.cons_append]
    simp only [containsSeg, Bool.or_eq_true]
    exact Or.inr ih

/-- A replacement without dollar signs passes through the substitution
unchanged. -/
theorem getSubstitution_no_dollar (matched pre suf : List Char) :
    ∀ r : List Char, '$' ∉ r → getSubstitution matched pre suf r = r := by
  intro r
  induction r with
  | nil => intro _; rfl
  | cons c rest ih =>
    intro hnot
    rw [List.mem_cons, not_or] at hnot
    obtain ⟨hne, hrest⟩ := hnot
    have hcne : ¬ (c = '$') := fun h => hne h.symm
    rw [getSubstitution.eq_def]
    simp only [hcne, if_false]
    rw [ih hrest]

/-- A successful first-occurrence replacement splits the list around the
substituted replacement text. -/
theorem replaceFirstSegAux_decomp (n r : List Char) (hn : n ≠ []) :
    ∀ (h pre : List Char), containsSeg n h = true →
      ∃ a b, replaceFirstSegAux n r pre h =
        a ++ getSubstitution n (pre.reverse ++ a) b r ++ b := by
  intro h
  induction h with
  | nil =>
    intro pre hc
    rw [containsSeg, List.isEmpty_iff] at hc
    exact absurd hc hn
  | cons c t ih =>
    intro pre hc
    by_cases hs : startsWithSeg n (c :: t) = true
    · refine ⟨[], (c :: t).drop n.length, ?_⟩
      simp [replaceFirstSegAux, hs]
    · have hsf : startsWithSeg n (c :: t) = false := Bool.eq_false_iff.mpr hs
      have hc' : containsSeg n t = true := by
        rw [containsSeg, hsf, Bool.false_or] at hc
        exact hc
      obtain ⟨a, b, hab⟩ := ih (c :: pre) hc'
      refine ⟨c :: a, b, ?_⟩
      simp [replaceFirstSegAux, hsf, hab, List.reverse_cons, List.append_assoc]

/-- The decomposition at the top level: the emitted prefix is the subject
text before the match and feeds the substitution of the replacement. -/
theorem replaceFirstSeg_decomp (n r : List Char) (hn : n ≠ []) (h : List Char)
    (hc : containsSeg n h = true) :
    ∃ a b, replaceFirstSeg n r h = a ++ getSubstitution n a b r ++ b := by
  obtain ⟨a, b, hab⟩ := replaceFirstSegAux_decomp n r hn h [] hc
  exact ⟨a, b, by simpa using hab⟩

/-- With the CSV present (truthy), `preprocessHtmlContent` on the one
special page injects the joined script blocks before the first closing
head marker, or prepends them when the markup has none. -/
theorem preprocess_csv_present (numSem : String → Option String) (details : Option String)
    (c html : String) (hc : c ≠ "") :
    preprocessHtmlContent numSem "engineering_responsibilities.html" details (some c) html =
      (if containsStr html headCloseTag then
        replaceFirstStr html headCloseTag
          (joinSep "\n"
            ((if jsTruthy details then [detailsScriptTag (details.getD "")] else []) ++
              [rowsScriptTag (stringifyRows (toRows numSem c))]) ++ "\n" ++ headCloseTag)
      else
        joinSep "\n"
          ((if jsTruthy details then [detailsScriptTag (details.getD "")] else []) ++
            [rowsScriptTag (stringifyRows (toRows numSem c))]) ++ html) := by
  have htr : jsTruthy (some c) = true := by simp [jsTruthy, hc]
  unfold preprocessHtmlContent
  rw [if_neg (by simp), htr]
  simp

/-- The injected block survives into the output in both placement
branches, provided the rows script tag is a trailing segment of the
injection and the injection carries no dollar sign (so the replacement
text passes through ECMAScript substitution unchanged). -/
theorem containsStr_of_injected (inj tagJ html : String)
    (hdollar : '$' ∉ inj.data)
    (hpre : ∃ pre : List Char, inj.data = pre ++ tagJ.data) :
    containsStr
      (if containsStr html headCloseTag then
        replaceFirstStr html headCloseTag (inj ++ "\n" ++ headCloseTag)
      else inj ++ html) tagJ = true := by
  obtain ⟨pre, hpredata⟩ := hpre
  by_cases hhead : containsStr html headCloseTag = true
  · rw [if_pos hhead]
    unfold containsStr at hhead ⊢
    unfold replaceFirstStr
    obtain ⟨a, b, hab⟩ := replaceFirstSeg_decomp headCloseTag.data
      (inj ++ "\n" ++ headCloseTag).data (by decide) html.data hhead
    have hrd : '$' ∉ (inj ++ "\n" ++ headCloseTag).data := by
      simp only [String.data_append, List.mem_append, not_or]
      exact ⟨⟨hdollar, by decide⟩, by decide⟩
    show containsSeg tagJ.data (replaceFirstSeg headCloseTag.data
      (inj ++ "\n" ++ headCloseTag).data html.data) = true
    rw [hab, getSubstitution_no_dollar headCloseTag.data a b
      (inj ++ "\n" ++ headCloseTag).data hrd]
    simp only [String.data_append, hpredata]
    have h2 := containsSeg_middle tagJ.data (a ++ pre)
      ("\n".data ++ headCloseTag.data ++ b)
    simpa [List.append_assoc] using h2
  · rw [if_neg hhead]
    unfold containsStr
    show containsSeg tagJ.data (inj ++ html).data = true
    rw [String.data_append, hpredata]
    have h2 := containsSeg_middle tagJ.data pre html.data
    simpa [List.append_assoc] using h2

/-! ## Claim C5 -/

/-- Claim C5 counterexample: for a present CSV, the preprocessed markup
contains the re-encoded rows JSON script block but does NOT contain the
raw CSV text — nothing embeds the CSV itself alongside the JSON array.
Moreover the embedding is not even verbatim for every CSV: a cell
containing the ECMAScript substitution sequence dollar-ampersand is
rewritten to the matched text by the replacement step of
`String.prototype.replace`, so for the CSV with single data cell such a
sequence the output lacks the re-encoded JSON array as produced by
`toRows` and instead carries the closing head marker spliced into the
cell value. -/
theorem c5_raw_csv_not_embedded :
    containsStr
        (preprocessHtmlContent intNumSem "engineering_responsibilities.html" none
          (some "name,score\nAlpha,42\n") "<html><head></head><body></body></html>")
        "name,score\nAlpha,42\n" = false ∧
    containsStr
        (preprocessHtmlContent intNumSem "engineering_responsibilities.html" none
          (some "name,score\nAlpha,42\n") "<html><head></head><body></body></html>")
        (rowsScriptTag "[\x7b\"name\":\"Alpha\",\"score\":42\x7d]") = true ∧
    containsStr
        (preprocessHtmlContent intNumSem "engineering_responsibilities.html" none
          (some "h\n$&") "<html><head></head><body></body></html>")
        (rowsScriptTag (stringifyRows (toRows intNumSem "h\n$&"))) = false ∧
    containsStr
        (preprocessHtmlContent intNumSem "engineering_responsibilities.html" none
          (some "h\n$&") "<html><head></head><body></body></html>")
        (rowsScriptTag "[\x7b\"h\":\"</head>\"\x7d]") = true := by
  refine ⟨by decide, by decide, by decide, by decide⟩

/-- Claim C5 (amended): when the CSV is present, the hook re-encodes it
into the row-oriented JSON array (headers from the first line; cells
converted through the numeric semantics; blank cells as empty strings)
and embeds that JSON array in an inert script block before the closing
head marker — or prepended when no head marker exists — alongside the raw
company-details JSON when that file is present; the raw CSV text itself
is not embedded, and the verbatim embedding holds only when the injected
content carries no dollar sign, because the head-marker placement uses
`String.prototype.replace`, whose substitution rewrites dollar sequences
in the replacement text. -/
theorem c5_rows_json_embedded :
    (∀ (numSem : String → Option String) (details : Option String) (c html : String),
        c ≠ "" →
        '$' ∉ (stringifyRows (toRows numSem c)).data →
        '$' ∉ (details.getD "").data →
        containsStr
            (preprocessHtmlContent numSem "engineering_responsibilities.html" details
              (some c) html)
            (rowsScriptTag (stringifyRows (toRows numSem c))) = true) ∧
    preprocessHtmlContent intNumSem "engineering_responsibilities.html" none
        (some "name,score\nAlpha,42\n") "<html><head></head><body></body></html>" =
      "<html><head><script type=\"application/json\" id=\"company-rows-json\">[\x7b\"name\":\"Alpha\",\"score\":42\x7d]</script>\n</head><body></body></html>" := by
  constructor
  · intro numSem details c html hc hjd hdd
    have htag : ∀ s : String, '$' ∉ s.data → '$' ∉ (rowsScriptTag s).data := by
      intro s hs hmem
      rw [rowsScriptTag, String.data_append, String.data_append] at hmem
      rcases List.mem_append.mp hmem with h1 | h2
      · rcases List.mem_append.mp h1 with h3 | h4
        · exact absurd h3 (by decide)
        · exact hs h4
      · exact absurd h2 (by decide)
    have hdet : ∀ s : String, '$' ∉ s.data → '$' ∉ (detailsScriptTag s).data := by
      intro s hs hmem
      rw [detailsScriptTag, String.data_append, String.data_append] at hmem
      rcases List.mem_append.mp hmem with h1 | h2
      · rcases List.mem_append.mp h1 with h3 | h4
        · exact absurd h3 (by decide)
        · exact hs h4
      · exact absurd h2 (by decide)
    rw [preprocess_csv_present numSem details c html hc]
    apply containsStr_of_injected
    · cases hjt : jsTruthy details
      · simp only [Bool.false_eq_true, if_false, List.nil_append]
        rw [show joinSep "\n" [rowsScriptTag (stringifyRows (toRows numSem c))] =
          rowsScriptTag (stringifyRows (toRows numSem c)) from rfl]
        exact htag _ hjd
      · simp only [if_true, List.cons_append, List.nil_append]
        rw [show joinSep "\n" [detailsScriptTag (details.getD ""),
            rowsScriptTag (stringifyRows (toRows numSem c))] =
          detailsScriptTag (details.getD "") ++ "\n" ++
            rowsScriptTag (stringifyRows (toRows numSem c)) from rfl]
        intro hmem
        rw [String.data_append, String.data_append] at hmem
        rcases List.mem_append.mp hmem with h1 | h2
        · rcases List.mem_append.mp h1 with h3 | h4
          · exact hdet _ hdd h3
          · exact absurd h4 (by decide)
        · exact htag _ hjd h2
    · cases hjt : jsTruthy details
      · exact ⟨[], by simp [hjt, joinSep]⟩
      · refine ⟨(detailsScriptTag (details.getD "")).data ++ "\n".data, ?_⟩
        simp [hjt, joinSep, String.data_append, List.append_assoc]
  · decide

/-- Witness for C5: the general embedding statement applied at a concrete
CSV, markup, details file and numeric semantics. -/
theorem c5_rows_json_embedded_witness :
    containsStr
        (preprocessHtmlContent intNumSem "engineering_responsibilities.html"
          (some "\x7b\"k\":1\x7d") (some "h\n5") "<p>no head</p>")
        (rowsScriptTag (stringifyRows (toRows intNumSem "h\n5"))) = true :=
  c5_rows_json_embedded.1 intNumSem (some "\x7b\"k\":1\x7d") "h\n5" "<p>no head</p>"
    (by decide) (by decide) (by decide)

/-! ## Claim C10 -/

/-- The data-line loop of `toRows` is the per-line contribution map: lines
whose raw first cell is empty contribute nothing, the rest contribute
their row in order. -/
theorem toRowsLoop_eq_filterMap (numSem : String → Option String) (hs : List String) :
    ∀ (ds : List (List Char)) (acc : List (List (String × JsVal))),
      toRowsLoop numSem hs ds acc = acc ++ ds.filterMap (csvLineToRow numSem hs) := by
  intro ds
  induction ds with
  | nil => intro acc; simp [toRowsLoop]
  | cons line rest ih =>
    intro acc
    cases hcols : (splitOnChar ',' line).map String.mk with
    | nil =>
      simp [toRowsLoop, csvLineToRow, hcols, ih, List.filterMap_cons]
    | cons c0 cs =>
      by_cases hc0 : c0 = ""
      · simp [toRowsLoop, csvLineToRow, hcols, hc0, ih, List.filterMap_cons]
      · simp [toRowsLoop, csvLineToRow, hcols, hc0, ih, List.filterMap_cons,
          List.append_assoc]

/-- Claim C10 counterexample: a data row whose first cell is whitespace
(so empty AFTER trimming, as the claim words it) is NOT omitted — the
skip check `if (!cols[0]) continue;` tests the raw cell, and `" "` is
truthy.  The claim-side rendering `toRowsSpecTrimmed` disagrees with the
source's `toRows` on this input. -/
theorem c10_trimmed_first_cell_row_kept :
    trimStr " " = "" ∧
    toRows intNumSem "a,b\n ,x" = [[("a", JsVal.jstr ""), ("b", JsVal.jstr "x")]] ∧
    toRowsSpecTrimmed intNumSem "a,b\n ,x" = [] ∧
    toRows intNumSem "a,b\n ,x" ≠ toRowsSpecTrimmed intNumSem "a,b\n ,x" := by
  refine ⟨by decide, by decide, by decide, by decide⟩

/-- Claim C10 (amended): `toRows` emits exactly the per-line contributions
of the data lines — a data line whose RAW first cell (before trimming) is
the empty string is omitted entirely (`csvLineToRow` returns `none` for
it), while a whitespace-only first cell that merely trims to empty is
kept; and blank lines never reach the data-line loop at all, since the
line split drops empty chunks. -/
theorem c10_row_omission :
    (∀ (numSem : String → Option String) (csvText : String),
        toRows numSem csvText =
          match csvLines csvText with
          | [] => []
          | headerLine :: dataLines =>
            dataLines.filterMap (csvLineToRow numSem (csvHeaders headerLine))) ∧
    (∀ (csvText : String) (l : List Char), l ∈ csvLines csvText → l ≠ []) := by
  constructor
  · intro numSem csvText
    unfold toRows
    by_cases hempty : csvText = ""
    · subst hempty
      rfl
    · rw [if_neg hempty]
      cases hlines : csvLines csvText with
      | nil => rfl
      | cons h ds => exact toRowsLoop_eq_filterMap numSem (csvHeaders h) ds []
  · intro csvText l hl
    have := List.mem_filter.mp hl
    intro hnil
    subst hnil
    simp at this

/-- Witness for C10: the characterization applied at a concrete CSV whose
middle line has an empty raw first cell (the emitted rows come from the
other line only), and the blank-line fact applied at a member line. -/
theorem c10_row_omission_witness :
    (toRows intNumSem "a,b\n,x\nc,1" =
        match csvLines "a,b\n,x\nc,1" with
        | [] => []
        | headerLine :: dataLines =>
          dataLines.filterMap (csvLineToRow intNumSem (csvHeaders headerLine))) ∧
    "c,1".data ≠ [] :=
  ⟨c10_row_omission.1 intNumSem "a,b\n,x\nc,1",
    c10_row_omission.2 "a,b\n,x\nc,1" "c,1".data (by decide)⟩
